import Mathlib

/-!
Verification of the Memo node of a fine-grained reactive engine
(src/leptos_reactive/src/memo.rs), shallowly embedded in Lean.

The file embeds, directly from the source:
  * `MemoState.run` — the recompute-compare-store step of a Memo
    (memo.rs lines 460-481);
  * the read paths `with`, `try_with`, `get`, `try_get`,
    `get_untracked`, `try_get_untracked`, `with_untracked`,
    `try_with_untracked` (memo.rs lines 180-388);
  * the stream bridge body (memo.rs lines 404-421).

The runtime and node-store helpers those paths call (`subscribe`,
`try_with_no_subscription`, `create_memo` on the runtime, `notify`
gating, the scope cleanup and the unbounded channel) are not part of
the given source tree; each such helper is modelled from the spec and
marked `Modelled from the spec:` in its doc comment.

Rust PartialEq on the value type is modelled as an arbitrary boolean
relation `eq : T → T → Bool`, since a Rust PartialEq implementation is
an arbitrary user-supplied comparison (it may, for example, compare
only part of the value). Cloning of pure values is the identity.
-/

/-- Equality on Option values derived from an element comparison, as the
derived PartialEq for Rust Option: two absent values are equal, two
present values compare by the element comparison, mixed is unequal. -/
def optionEq {T : Type} (eq : T → T → Bool) : Option T → Option T → Bool
  | none, none => true
  | some a, some b => eq a b
  | _, _ => false

/-- Embedding of MemoState::run (memo.rs lines 460-481). The node cell
holds an Option of the value type (the source downcasts it to that type
at lines 464 and 476). The step computes the new value from the previous
cell, compares with the derived Option equality
(curr_value.as_ref() != Some(new_value)), stores the new value ONLY when
the comparison says different (the source guards the write with
if is_different), and returns the is_different bit. The result pair is
the cell after the run and the returned bit. -/
def MemoState.run {T : Type} (eq : T → T → Bool) (f : Option T → T)
    (value : Option T) : Option T × Bool :=
  let newValue := f value
  let isDifferent := !(optionEq eq value (some newValue))
  (if isDifferent then some newValue else value, isDifferent)

/-- First claims are about `MemoState.run` alone; sanity examples. -/
example : MemoState.run (fun a b : Nat => a == b) (fun _ => 3) none
    = (some 3, true) := by decide

example : MemoState.run (fun a b : Nat => a == b) (fun _ => 3) (some 3)
    = (some 3, false) := by decide

example : MemoState.run (fun a b : Nat => a == b) (fun _ => 4) (some 3)
    = (some 4, true) := by decide

/-- C1, counterexample. The claim says the cached value after run equals
the value just returned by the derivation even when the two compare equal
under PartialEq. Take the value type Nat × Nat with the lawful PartialEq
that compares only the first component, previous cell some (0, 0) and a
derivation returning (0, 1): run keeps the old cell some (0, 0), which
does not equal some (0, 1), the value the derivation just returned. -/
theorem memoRunOverwriteClaimFalse :
    (MemoState.run (fun a b : Nat × Nat => a.1 == b.1)
        (fun _ => ((0 : Nat), (1 : Nat))) (some (0, 0))).1
      ≠ some ((0 : Nat), (1 : Nat))
    ∧ (fun _ : Option (Nat × Nat) => ((0 : Nat), (1 : Nat))) (some (0, 0))
      = ((0 : Nat), (1 : Nat)) := by
  constructor
  · decide
  · rfl

/-- C1, amended. After run the cell holds the newly returned value exactly
when is_different is true; when the new value compares equal to the
previous one under PartialEq, the previous cell is kept unchanged and the
new value is discarded. The returned bit is the Option-level inequality of
the previous cell and the new value. -/
theorem memoRunStoresOnlyWhenDifferent {T : Type} (eq : T → T → Bool)
    (f : Option T → T) (prev : Option T) :
    MemoState.run eq f prev =
      (if optionEq eq prev (some (f prev)) then prev else some (f prev),
       !(optionEq eq prev (some (f prev)))) := by
  unfold MemoState.run
  cases h : optionEq eq prev (some (f prev)) <;> simp [h]

/-- C9. On the first run, when the previous cell is absent, the comparison
of an absent previous value with a present new value is always unequal, so
run always stores the first computed value and always returns true, for
every derivation and every comparison. -/
theorem memoFirstRunAlwaysDifferent {T : Type} (eq : T → T → Bool)
    (f : Option T → T) :
    MemoState.run eq f none = (some (f none), true) := by
  unfold MemoState.run
  simp [optionEq]

/-! ## Node state and the runtime helpers the read paths call -/

/-- The reactive-graph state of one Memo node: the type-erased cell (an
Option of the value type, per the source comment at memo.rs line 375 and
the downcasts in run), the subscriber set, and the disposal flag. -/
structure MemoNodeState (T : Type) where
  value : Option T
  subscribers : List Nat
  disposed : Bool
deriving DecidableEq

/-- Error type of the node-store read, as in the runtime: the node may be
gone (disposed) or the type-erased cell may fail to downcast to the
requested type. -/
inductive SignalError where
  | disposed
  | typeMismatch
deriving DecidableEq

/-- Outcome of one public read operation: a returned value, an absent
result (the try family returning None), or a fatal panic with its
message. -/
inductive ReadOut (O : Type) where
  | val (o : O)
  | absent
  | panic (msg : String)
deriving DecidableEq

/-- Panic message of panic_getting_dead_memo (memo.rs lines 506-518),
without the creation and call-site locations. -/
def deadMemoMsg : String := "Attempted to get a memo after it was disposed."

/-- Panic message of unwrapping an absent Option. -/
def unwrapMsg : String := "called Option::unwrap on a None value"

/-- Modelled from the spec: NodeId::subscribe, the node-store half of a
tracked read, is not under src. Per the read contract, when an active
observer exists the dependency edge observer-subscribes-to-node is
recorded in the subscriber set before the value is returned; with no
active observer, or on a node already removed from the store, nothing
happens. -/
def NodeId.subscribe {T : Type} (observer : Option Nat)
    (s : MemoNodeState T) : MemoNodeState T :=
  if s.disposed then s
  else
    match observer with
    | some o =>
        if o ∈ s.subscribers then s
        else { s with subscribers := s.subscribers ++ [o] }
    | none => s

/-- Modelled from the spec: NodeId::try_with_no_subscription (not under
src) reads the stored value without touching the active observer,
returning Err on a disposed node; the value is stored type-erased with
runtime downcasting. This is the instantiation whose closure takes the
stored type, the Option of the value type (as in try_with at memo.rs
line 377 and get_untracked at line 196): on a live node the downcast
succeeds and the closure is applied to the cell. The closure may itself
panic (the unwrap inside it), so it returns a ReadOut. -/
def tryWithNoSubscriptionStored {T O : Type} (s : MemoNodeState T)
    (f : Option T → ReadOut O) : Except SignalError (ReadOut O) :=
  if s.disposed then .error .disposed else .ok (f s.value)

/-- Modelled from the spec: the same node-store read, at the instantiation
whose closure takes the bare value type T (as passed by with_untracked at
memo.rs line 248, try_with_untracked at line 274 and try_get_untracked at
line 223). The cell is stored as an Option of the value type (source
comment at line 375; run downcasts to that type at line 464), so the
runtime downcast to the bare value type fails on a live node and the read
returns a type error; on a disposed node the disposal error comes first. -/
def tryWithNoSubscriptionInner {T O : Type} (s : MemoNodeState T)
    (f : T → O) : Except SignalError O :=
  if s.disposed then .error .disposed else .error .typeMismatch

/-! ## The read paths of memo.rs -/

/-- Embedding of Memo::try_with (memo.rs lines 374-387): subscribe the
active observer, then read without subscription, lifting the callback over
the stored Option by unwrapping (the lifted closure panics if the cell is
absent); an Err from the store becomes an absent result. Returns the state
after the read and the outcome; val o stands for returning Some o and
absent for returning None. -/
def Memo.tryWith {T O : Type} (observer : Option Nat) (s : MemoNodeState T)
    (f : T → O) : MemoNodeState T × ReadOut O :=
  let s2 := NodeId.subscribe observer s
  match tryWithNoSubscriptionStored s2 (fun mv =>
      match mv with
      | some v => ReadOut.val (f v)
      | none => ReadOut.panic unwrapMsg) with
  | .ok r => (s2, r)
  | .error _ => (s2, .absent)

/-- Embedding of Memo::with (memo.rs lines 350-358): try_with, and on an
absent result panic_getting_dead_memo. -/
def Memo.with {T O : Type} (observer : Option Nat) (s : MemoNodeState T)
    (f : T → O) : MemoNodeState T × ReadOut O :=
  let r := Memo.tryWith observer s f
  (r.1,
   match r.2 with
   | .val o => .val o
   | .absent => .panic deadMemoMsg
   | .panic m => .panic m)

/-- Embedding of Memo::get (memo.rs line 312): with at the clone function;
cloning a pure value is the identity. -/
def Memo.get {T : Type} (observer : Option Nat) (s : MemoNodeState T) :
    MemoNodeState T × ReadOut T :=
  Memo.with observer s (fun v => v)

/-- Embedding of Memo::try_get (memo.rs line 330): try_with at the clone
function. -/
def Memo.tryGet {T : Type} (observer : Option Nat) (s : MemoNodeState T) :
    MemoNodeState T × ReadOut T :=
  Memo.tryWith observer s (fun v => v)

/-- Embedding of Memo::get_untracked (memo.rs lines 194-206): read without
subscription with the closure over the stored Option that clones and
unwraps; an Err from the store is panic_getting_dead_memo. The state is
returned unchanged: the untracked path never touches the observer or the
subscriber set. -/
def Memo.getUntracked {T : Type} (s : MemoNodeState T) :
    MemoNodeState T × ReadOut T :=
  match tryWithNoSubscriptionStored s (fun mv =>
      match mv with
      | some v => ReadOut.val v
      | none => ReadOut.panic unwrapMsg) with
  | .ok r => (s, r)
  | .error _ => (s, .panic deadMemoMsg)

/-- Embedding of Memo::try_get_untracked (memo.rs lines 221-227): read
without subscription with the clone closure over the bare value type, then
ok() — any Err becomes an absent result. -/
def Memo.tryGetUntracked {T : Type} (s : MemoNodeState T) :
    MemoNodeState T × ReadOut T :=
  match tryWithNoSubscriptionInner s (fun v : T => v) with
  | .ok v => (s, .val v)
  | .error _ => (s, .absent)

/-- Embedding of Memo::with_untracked (memo.rs lines 244-257): read
without subscription with the callback over the bare value type; an Err
from the store is panic_getting_dead_memo. -/
def Memo.withUntracked {T O : Type} (s : MemoNodeState T) (f : T → O) :
    MemoNodeState T × ReadOut O :=
  match tryWithNoSubscriptionInner s f with
  | .ok o => (s, .val o)
  | .error _ => (s, .panic deadMemoMsg)

/-- Embedding of Memo::try_with_untracked (memo.rs lines 272-278): read
without subscription with the callback over the bare value type, then
ok(). -/
def Memo.tryWithUntracked {T O : Type} (s : MemoNodeState T) (f : T → O) :
    MemoNodeState T × ReadOut O :=
  match tryWithNoSubscriptionInner s f with
  | .ok o => (s, .val o)
  | .error _ => (s, .absent)

/-- Embedding of SignalDispose::dispose (memo.rs lines 424-428) over the
single-node state: the runtime removes the node, so every later store read
on it fails with the disposal error; modelled by the disposal flag. -/
def Memo.dispose {T : Type} (s : MemoNodeState T) : MemoNodeState T :=
  { s with disposed := true }

/-- Modelled from the spec: Runtime::create_memo, called by create_memo at
memo.rs line 82, is not under src. The node is allocated with an absent
cell and its computation runs immediately once (eager initial evaluation),
through the same MemoState.run step. -/
def Runtime.create_memo {T : Type} (eq : T → T → Bool)
    (f : Option T → T) : MemoNodeState T :=
  let cell : Option T := none
  let r := MemoState.run eq f cell
  { value := r.1, subscribers := [], disposed := false }

/-- Modelled from the spec: the notify step at a Memo node, not under src.
When a notification wave reaches a Memo, the runtime re-runs its
computation once via MemoState.run and propagates notify to the memo
subscribers exactly when run returned true. The result is the node state
after the re-run and the list of subscribers to notify next. -/
def memoOnNotify {T : Type} (eq : T → T → Bool) (f : Option T → T)
    (s : MemoNodeState T) : MemoNodeState T × List Nat :=
  let r := MemoState.run eq f s.value
  ({ s with value := r.1 }, if r.2 then s.subscribers else [])

/-! ## Theorems on the read paths and the graph operations -/

/-- C2. The bit returned by run is exactly the PartialEq difference of the
new value and the previous one — an absent previous value counts as
different, a present one compares by the value comparison — and it is this
bit alone that decides whether notify propagates to the memo subscribers:
they are notified when it is true and nobody is notified when it is
false. -/
theorem memoRunBitGatesNotify {T : Type} (eq : T → T → Bool)
    (f : Option T → T) (prev : Option T) (s : MemoNodeState T) :
    (MemoState.run eq f prev).2 =
      (match prev with
       | none => true
       | some p => !(eq p (f prev)))
    ∧ (memoOnNotify eq f s).2 =
        (if (MemoState.run eq f s.value).2 then s.subscribers else []) := by
  constructor
  · cases prev <;> simp [MemoState.run, optionEq]
  · rfl

/-- C3. Immediately after creation the memo computation has run exactly
once with an absent previous value: the cell holds the value of the
derivation at none, the subscriber set is empty, the node is live,
get_untracked returns that value with the state unchanged, and the cell is
never absent once creation completes. -/
theorem memoCreateEagerInitial {T : Type} (eq : T → T → Bool)
    (f : Option T → T) :
    Runtime.create_memo eq f =
      { value := some (f none), subscribers := [], disposed := false }
    ∧ Memo.getUntracked (Runtime.create_memo eq f) =
        (Runtime.create_memo eq f, .val (f none))
    ∧ (Runtime.create_memo eq f).value ≠ none := by
  refine ⟨?_, ?_, ?_⟩
  · simp [Runtime.create_memo, memoFirstRunAlwaysDifferent]
  · simp [Runtime.create_memo, memoFirstRunAlwaysDifferent,
      Memo.getUntracked, tryWithNoSubscriptionStored]
  · simp [Runtime.create_memo, memoFirstRunAlwaysDifferent]

/-- C4. On a disposed memo the infallible reads terminate with the
dead-memo panic while every try variant, tracked or untracked, returns an
absent result; the node state is unchanged by all of them. -/
theorem memoDisposedReads {T O : Type} (s : MemoNodeState T)
    (observer : Option Nat) (f : T → O) (h : s.disposed = true) :
    Memo.get observer s = (s, .panic deadMemoMsg)
    ∧ Memo.with observer s f = (s, .panic deadMemoMsg)
    ∧ Memo.getUntracked s = (s, .panic deadMemoMsg)
    ∧ Memo.tryGet observer s = (s, .absent)
    ∧ Memo.tryWith observer s f = (s, .absent)
    ∧ Memo.tryGetUntracked s = (s, .absent)
    ∧ Memo.tryWithUntracked s f = (s, .absent) := by
  refine ⟨?_, ?_, ?_, ?_, ?_, ?_, ?_⟩ <;>
    simp [Memo.get, Memo.with, Memo.tryGet, Memo.tryWith,
      Memo.getUntracked, Memo.tryGetUntracked, Memo.tryWithUntracked,
      NodeId.subscribe, tryWithNoSubscriptionStored,
      tryWithNoSubscriptionInner, h]

/-- C4, witness at a concrete disposed node. -/
theorem memoDisposedReadsWitness :
    (({ value := some 0, subscribers := [], disposed := true } :
        MemoNodeState Nat)).disposed = true
    ∧ Memo.get none
        ({ value := some 0, subscribers := [], disposed := true } :
          MemoNodeState Nat) =
        ({ value := some 0, subscribers := [], disposed := true },
          .panic deadMemoMsg) := by
  refine ⟨rfl, ?_⟩
  exact (memoDisposedReads
    ({ value := some 0, subscribers := [], disposed := true } :
      MemoNodeState Nat) none (fun v => v) rfl).1

/-- C5. A tracked read of a live memo with a present cell first records
the dependency edge from the active observer into the subscriber set and
then returns the cached value; the cell is untouched (the derivation is
not an input of the read path at all, so no read can invoke it). -/
theorem memoTrackedRead {T O : Type} (s : MemoNodeState T) (o : Nat)
    (v : T) (f : T → O) (hd : s.disposed = false) (hv : s.value = some v) :
    Memo.with (some o) s f = (NodeId.subscribe (some o) s, .val (f v))
    ∧ Memo.get (some o) s = (NodeId.subscribe (some o) s, .val v)
    ∧ (NodeId.subscribe (some o) s).value = s.value
    ∧ o ∈ (NodeId.subscribe (some o) s).subscribers := by
  have hsub : (NodeId.subscribe (some o) s).value = s.value ∧
      (NodeId.subscribe (some o) s).disposed = false ∧
      o ∈ (NodeId.subscribe (some o) s).subscribers := by
    unfold NodeId.subscribe
    by_cases hm : o ∈ s.subscribers <;> simp [hd, hm]
  refine ⟨?_, ?_, hsub.1, hsub.2.2⟩
  · simp [Memo.with, Memo.tryWith, tryWithNoSubscriptionStored,
      hsub.1, hsub.2.1, hv]
  · simp [Memo.get, Memo.with, Memo.tryWith, tryWithNoSubscriptionStored,
      hsub.1, hsub.2.1, hv]

/-- C5, witness at a concrete live node with active observer 7. -/
theorem memoTrackedReadWitness :
    (({ value := some 5, subscribers := [], disposed := false } :
        MemoNodeState Nat)).disposed = false
    ∧ (({ value := some 5, subscribers := [], disposed := false } :
        MemoNodeState Nat)).value = some 5
    ∧ Memo.get (some 7)
        ({ value := some 5, subscribers := [], disposed := false } :
          MemoNodeState Nat) =
        (NodeId.subscribe (some 7)
          ({ value := some 5, subscribers := [], disposed := false } :
            MemoNodeState Nat), .val 5) := by
  refine ⟨rfl, rfl, ?_⟩
  exact (memoTrackedRead
    ({ value := some 5, subscribers := [], disposed := false } :
      MemoNodeState Nat) 7 5 (fun v => v) rfl rfl).2.1

/-- C6, evaluation at the failing input. On a live memo whose cell holds
42, get_untracked returns the cached value with the state unchanged, but
with_untracked panics with the dead-memo message even though the node is
live: the closure it hands to the store read (memo.rs line 248) takes the
bare value type, so the runtime downcast of the stored cell — an Option of
the value type, per the comment at line 375 and the downcast in run at
line 464 — fails, and the Err branch calls panic_getting_dead_memo. -/
theorem memoWithUntrackedPanicsOnLiveNode :
    Memo.getUntracked
        ({ value := some 42, subscribers := [], disposed := false } :
          MemoNodeState Nat) =
      ({ value := some 42, subscribers := [], disposed := false },
        .val 42)
    ∧ Memo.withUntracked
        ({ value := some 42, subscribers := [], disposed := false } :
          MemoNodeState Nat) (fun v => v) =
      ({ value := some 42, subscribers := [], disposed := false },
        .panic deadMemoMsg) := by
  constructor <;> rfl

/-- C10. get is observably the same operation as with at the clone
function, and try_get the same as try_with at the clone function: the
resulting state (hence the recorded subscription edge) and the outcome
(value, absence, or panic) coincide, on every node state, live or
disposed. In the source this is definitional (memo.rs lines 312 and
330). -/
theorem memoGetEquivWithClone {T : Type} (observer : Option Nat)
    (s : MemoNodeState T) :
    Memo.get observer s = Memo.with observer s (fun v => v)
    ∧ Memo.tryGet observer s = Memo.tryWith observer s (fun v => v) := by
  exact ⟨rfl, rfl⟩

/-! ## The stream bridge (memo.rs lines 404-421) -/

/-- Modelled from the spec: the unbounded channel of the stream bridge.
The receiving half is the stream; sent is the sequence of elements it
yields, closed is set by close_channel. -/
structure Channel (T : Type) where
  sent : List T
  closed : Bool
deriving DecidableEq

/-- Modelled from the spec: unbounded_send on the channel. Publishing into
a closed channel is a silent no-op, not an error that can escape — the
channel is unchanged and an Err value is merely returned; the producer
never blocks, so on an open channel the element is appended. -/
def Channel.unboundedSend {T : Type} (c : Channel T) (v : T) :
    Channel T × Except Unit Unit :=
  if c.closed then (c, .error ()) else
    ({ c with sent := c.sent ++ [v] }, .ok ())

/-- Embedding of the effect body of to_stream (memo.rs line 417): the
result of unbounded_send is bound to the wildcard and discarded, so only
the channel state survives; no error is raised and nothing panics. -/
def streamEffectBody {T : Type} (c : Channel T) (v : T) : Channel T :=
  (Channel.unboundedSend c v).1

/-- An event relevant to one stream: an upstream change making the memo
re-run with its derivation, or the disposal of the owning scope. -/
inductive StreamEvent (T : Type) where
  | update (f : Option T → T)
  | disposeScope

/-- State of the stream bridge: the memo cell, the channel, and whether
the scope (owning both the cleanup and the effect) is still alive. -/
structure StreamState (T : Type) where
  memoValue : Option T
  channel : Channel T
  live : Bool

/-- Embedding of to_stream (memo.rs lines 404-421) at the moment of
creation, for a memo whose cached value is v0: the unbounded channel is
created open and empty, the cleanup closing it is registered on the scope,
and the effect runs immediately once, publishing this.get() — the current
cached value. -/
def toStreamInit {T : Type} (v0 : T) : StreamState T :=
  { memoValue := some v0,
    channel := streamEffectBody { sent := [], closed := false } v0,
    live := true }

/-- Modelled from the spec: one event step of the stream bridge. While the
scope is alive, an upstream change re-runs the memo via MemoState.run and,
exactly when run reported a difference, notify reaches the wrapping effect,
which re-runs and publishes this.get() — the freshly stored value. Scope
disposal runs the registered cleanup, closing the channel, and detaches
the effect and the memo so no further work is scheduled for them. -/
def streamStep {T : Type} (eq : T → T → Bool) (s : StreamState T) :
    StreamEvent T → StreamState T
  | .update f =>
      if s.live then
        let r := MemoState.run eq f s.memoValue
        { s with
          memoValue := r.1,
          channel :=
            if r.2 then streamEffectBody s.channel (f s.memoValue)
            else s.channel }
      else s
  | .disposeScope =>
      { s with channel := { s.channel with closed := true }, live := false }

/-- The stream bridge run over a whole event sequence, starting from a
memo whose cached value is v0 at stream creation. -/
def runStream {T : Type} (eq : T → T → Bool) (v0 : T)
    (events : List (StreamEvent T)) : StreamState T :=
  events.foldl (streamStep eq) (toStreamInit v0)

/-- Follows the words of the claim, for comparison with the embedding: the
elements after the first are one per change of the memo value — a change
being an update whose new value differs from the previous one under the
PartialEq gate — and none at all from the disposal of the owning scope
on. -/
def expectedTail {T : Type} (eq : T → T → Bool) :
    Option T → List (StreamEvent T) → List T
  | _, [] => []
  | prev, .update f :: rest =>
      let nv := f prev
      if optionEq eq prev (some nv) then expectedTail eq prev rest
      else nv :: expectedTail eq (some nv) rest
  | _, .disposeScope :: _ => []

/-- After the scope is gone nothing is ever published: the sent list is
frozen. -/
theorem streamDeadFrozen {T : Type} (eq : T → T → Bool)
    (events : List (StreamEvent T)) (s : StreamState T)
    (h : s.live = false) :
    (events.foldl (streamStep eq) s).channel.sent = s.channel.sent := by
  induction events generalizing s with
  | nil => rfl
  | cons e rest ih =>
      cases e with
      | update f =>
          simp [List.foldl, streamStep, h, ih s h]
      | disposeScope =>
          simp [List.foldl, streamStep]
          exact ih _ rfl

/-- While the scope is alive and the channel open, the run appends exactly
the expected tail to whatever was already sent. -/
theorem streamAliveAppends {T : Type} (eq : T → T → Bool)
    (events : List (StreamEvent T)) (s : StreamState T)
    (hl : s.live = true) (hc : s.channel.closed = false) :
    (events.foldl (streamStep eq) s).channel.sent =
      s.channel.sent ++ expectedTail eq s.memoValue events := by
  induction events generalizing s with
  | nil => simp [expectedTail]
  | cons e rest ih =>
      obtain ⟨mv, ch, lv⟩ := s
      simp only [StreamState.live] at hl
      simp only [StreamState.channel] at hc
      subst hl
      rw [List.foldl_cons]
      cases e with
      | update f =>
          have hrun := memoRunStoresOnlyWhenDifferent eq f mv
          by_cases hdiff : optionEq eq mv (some (f mv)) = true
          · have hr : MemoState.run eq f mv = (mv, false) := by
              rw [hrun, hdiff]
              simp
            have hstep :
                streamStep eq ⟨mv, ch, true⟩ (.update f) = ⟨mv, ch, true⟩ := by
              simp [streamStep, hr]
            rw [hstep, ih ⟨mv, ch, true⟩ rfl hc]
            simp [expectedTail, hdiff]
          · have hdiff2 : optionEq eq mv (some (f mv)) = false :=
              Bool.eq_false_iff.mpr hdiff
            have hr : MemoState.run eq f mv = (some (f mv), true) := by
              rw [hrun, hdiff2]
              simp
            have hstep :
                streamStep eq ⟨mv, ch, true⟩ (.update f) =
                  ⟨some (f mv), streamEffectBody ch (f mv), true⟩ := by
              simp [streamStep, hr]
            rw [hstep, ih ⟨some (f mv), streamEffectBody ch (f mv), true⟩ rfl
              (by simp [streamEffectBody, Channel.unboundedSend, hc])]
            simp [streamEffectBody, Channel.unboundedSend, hc,
              expectedTail, hdiff2]
      | disposeScope =>
          have hstep :
              streamStep eq ⟨mv, ch, true⟩ .disposeScope =
                ⟨mv, { ch with closed := true }, false⟩ := rfl
          rw [hstep, streamDeadFrozen eq rest _ rfl]
          simp [expectedTail]

/-- C7. Over every event sequence, the stream created on a memo whose
cached value is v0 yields first v0 — the cached value at stream creation —
then exactly one further element per change of the memo value under the
PartialEq gate, each being the freshly stored value, and nothing from the
disposal of the owning scope on. -/
theorem memoToStreamTrace {T : Type} (eq : T → T → Bool) (v0 : T)
    (events : List (StreamEvent T)) :
    (runStream eq v0 events).channel.sent =
      v0 :: expectedTail eq (some v0) events := by
  unfold runStream
  rw [streamAliveAppends eq events (toStreamInit v0) rfl rfl]
  simp [toStreamInit, streamEffectBody, Channel.unboundedSend]

/-- C8. Once the channel is closed, the publish performed by the internal
effect is a silent no-op: the channel is returned unchanged — nothing is
appended, nothing panics (the outcome type has no failure) — and the Err
value unbounded_send reports is discarded by the wildcard binding in the
effect body. -/
theorem streamSendAfterCloseNoop {T : Type} (c : Channel T) (v : T)
    (h : c.closed = true) :
    streamEffectBody c v = c
    ∧ (Channel.unboundedSend c v).2 = .error () := by
  constructor <;> simp [streamEffectBody, Channel.unboundedSend, h]

/-- C8, witness at a concrete closed channel. -/
theorem streamSendAfterCloseNoopWitness :
    (({ sent := [], closed := true } : Channel Nat)).closed = true
    ∧ streamEffectBody ({ sent := [], closed := true } : Channel Nat) 0 =
        ({ sent := [], closed := true } : Channel Nat) := by
  refine ⟨rfl, ?_⟩
  exact (streamSendAfterCloseNoop
    ({ sent := [], closed := true } : Channel Nat) 0 rfl).1

